import Mathlib

/-!
Verification of the BugSniper Game Session Engine.

This file is a shallow embedding, in Lean 4, of the pool-based game engine of
the BugSniper repository:

* `src/app/problems/index.ts` — the Problem/Issue data model, `getProblems`
  and the scoring policy `calculateScore`;
* `src/app/config/game.ts` — the `gameConfig` constants;
* `src/app/routes/$lang.$codeLanguage.play.tsx` (the pool-based variant) —
  the session state (`GameState` plus the `gameEnded` flag), the event
  handlers `handleLineTap`, `handleSkip`, the timer-tick body, the state
  initializer, and the end-of-session result aggregation effect.

TypeScript `number` fields that the data model constrains to non-negative
integers (issue base scores, levels, line numbers, counters) are embedded as
`Nat`; the cumulative score and the remaining seconds, which the code clamps
with explicit comparisons against 0, are embedded as `Int` so that the
clamping is visible.  The floating-point products `baseScore * 1.2` and
`baseScore * 1.5` followed by `Math.floor` are embedded as the exact natural
divisions `6*b/5` and `3*b/2`: for every integer base below 2^53 the IEEE
double computation rounds to the same floor (the relative error of the double
nearest 1.2 is below half an ulp of any product), so the translation is exact
on the representable range.
-/

namespace BugSniper

/-- Issue categories, from `IssueType` in `src/app/problems/index.ts`. -/
inductive IssueType
  | bug
  | security
  | performance
  | design
deriving DecidableEq, Repr

/-- Issue severities, from `IssueSeverity` in `src/app/problems/index.ts`. -/
inductive IssueSeverity
  | minor
  | normal
  | critical
deriving DecidableEq, Repr

/-- The `Record<'ja' | 'en', string>` description text of an issue. -/
structure LocalizedText where
  ja : String
  en : String
deriving DecidableEq, Repr

/-- An issue embedded in a problem, from `Issue` in
`src/app/problems/index.ts`.  `lines` are 1-based line numbers; `score` is
the base score (a positive integer per the data model). -/
structure Issue where
  id : String
  lines : List Nat
  type : IssueType
  severity : IssueSeverity
  score : Nat
  description : LocalizedText
deriving DecidableEq, Repr

/-- Code language tags, from `CodeLanguage` in `src/app/problems/index.ts`. -/
inductive CodeLanguage
  | javascript
  | php
  | ruby
  | java
  | dart
  | python
deriving DecidableEq, BEq, Repr

/-- `CodeLanguageOrAll = CodeLanguage | 'all'`. -/
inductive CodeLanguageOrAll
  | lang (l : CodeLanguage)
  | all
deriving DecidableEq, BEq, Repr

/-- A problem, from `Problem` in `src/app/problems/index.ts`. -/
structure Problem where
  id : String
  codeLanguage : CodeLanguage
  level : Nat
  code : List String
  issues : List Issue
deriving DecidableEq, Repr

/-- Embedding of `getProblems(lang, level)`.  The module-level
`problemsCache` (the eagerly imported problem JSON files) is passed
explicitly as `cache`; the body is the `problemsCache.filter` of the
source: `langMatch = lang === 'all' || problem.codeLanguage === lang`,
`levelMatch = problem.level === level`. -/
def getProblems (cache : List Problem) (lang : CodeLanguageOrAll) (level : Nat) :
    List Problem :=
  cache.filter (fun problem =>
    (lang == CodeLanguageOrAll.all
      || CodeLanguageOrAll.lang problem.codeLanguage == lang)
    && problem.level == level)

/-- Embedding of `calculateScore(baseScore, combo)` from
`src/app/problems/index.ts`.  The source picks a multiplier
(`combo >= 4 → 2.0`, `combo === 3 → 1.5`, `combo === 2 → 1.2`, else `1.0`)
and returns `Math.floor(baseScore * multiplier)`; each branch is embedded
as the exact integer floor of the rational product. -/
def calculateScore (baseScore : Nat) (combo : Nat) : Nat :=
  if combo ≥ 4 then
    2 * baseScore
  else if combo = 3 then
    3 * baseScore / 2
  else if combo = 2 then
    6 * baseScore / 5
  else
    baseScore

/-- The game configuration record, from `gameConfig` in
`src/app/config/game.ts`. -/
structure GameConfig where
  problemsPerLevel : List (Nat × Nat)
  totalGameTime : Nat
  allIssuesFoundBonus : Nat
deriving DecidableEq, Repr

/-- `gameConfig` of `src/app/config/game.ts`: 20 problems per level for
levels 1–3, 60 seconds of game time, 3 bonus points for finding every
issue of a problem. -/
def gameConfig : GameConfig :=
  { problemsPerLevel := [(1, 20), (2, 20), (3, 20)]
    totalGameTime := 60
    allIssuesFoundBonus := 3 }

/-- The multiplier table of the specification (spec §4.2), as exact
rationals: combo 1 → 1.0, combo 2 → 1.2, combo 3 → 1.5, combo ≥ 4 → 2.0.
This mirrors the branch structure of `calculateScore` so that the claim
`points = floor(baseScore × multiplier)` can be stated against it. -/
def comboMultiplier (combo : Nat) : ℚ :=
  if combo ≥ 4 then 2
  else if combo = 3 then 3 / 2
  else if combo = 2 then 6 / 5
  else 1

/-- The `tappedLines` field is a TS `Record<string, number[]>` (problem id →
tapped line numbers).  It is embedded as an association list; `recordGet`
is the read `tappedLines[problemId] || []` (a missing key reads as the
empty list, exactly as in the source). -/
def recordGet (m : List (String × List Nat)) (k : String) : List Nat :=
  match m.find? (fun kv => kv.1 == k) with
  | some kv => kv.2
  | none => []

/-- The update `{ ...record, [k]: v }`: the entry of key `k` is replaced
(or appended when absent); all other entries are untouched. -/
def recordSet (m : List (String × List Nat)) (k : String) (v : List Nat) :
    List (String × List Nat) :=
  match m with
  | [] => [(k, v)]
  | kv :: rest => if kv.1 == k then (k, v) :: rest else kv :: recordSet rest k v

/-- The mutable session state of the pool-based `Play` component
(`GameState` in `src/app/routes/$lang.$codeLanguage.play.tsx`). `score`
and `remainingSeconds` are embedded as `Int` because the source clamps
both against 0 with explicit comparisons. -/
structure GameState where
  currentProblem : Option Problem
  currentLevel : Nat
  score : Int
  combo : Nat
  remainingSeconds : Int
  solvedIssueIds : List String
  allSolvedIssueIds : List String
  tappedLines : List (String × List Nat)
  problemCount : Nat
  usedProblemIds : List String
  problemPool : List Problem
deriving DecidableEq, Repr

/-- The full component state relevant to the engine: the `GameState`
`useState` cell together with the separate `gameEnded` boolean flag. -/
structure PlayState where
  gameState : GameState
  gameEnded : Bool
deriving DecidableEq, Repr

/-- Embedding of `selectNextProblemFromPool(pool)`:
`pool.length > 0 ? pool[0] : null`. -/
def selectNextProblemFromPool (pool : List Problem) : Option Problem :=
  match pool with
  | [] => none
  | p :: _ => some p

/-- Embedding of the `useState` initializer of the pool-based `Play`
component.  The pool produced by `initializeProblemPool` is passed in as
`pool` (its shuffling draws on the global `Math.random` and is therefore
kept abstract).  `firstProblem?.level || 1` is falsy on a 0 level, hence
the explicit 0 test. -/
def initSession (pool : List Problem) : PlayState :=
  let firstProblem := selectNextProblemFromPool pool
  { gameEnded := false
    gameState :=
      { currentProblem := firstProblem
        currentLevel :=
          match firstProblem with
          | some p => if p.level ≠ 0 then p.level else 1
          | none => 1
        score := 0
        combo := 0
        remainingSeconds := (gameConfig.totalGameTime : Int)
        solvedIssueIds := []
        allSolvedIssueIds := []
        tappedLines := []
        problemCount := 0
        usedProblemIds :=
          match firstProblem with
          | some p => [p.id]
          | none => []
        problemPool := if firstProblem.isSome then pool.drop 1 else pool } }

/-- Embedding of `handleLineTap(lineNumber)`.  The guards, the
`alreadyTapped` check, the `issues.find` of a covering not-yet-solved
issue, and the two `setGameState` branches (hit / miss) follow the source
line by line. -/
def handleLineTap (lineNumber : Nat) (ps : PlayState) : PlayState :=
  if ps.gameEnded then ps
  else
    match ps.gameState.currentProblem with
    | none => ps
    | some currentProblem =>
      let s := ps.gameState
      let problemId := currentProblem.id
      let alreadyTapped := (recordGet s.tappedLines problemId).contains lineNumber
      if alreadyTapped then ps
      else
        let issues := currentProblem.issues
        let hitIssue := issues.find? (fun issue =>
          issue.lines.contains lineNumber && !(s.solvedIssueIds.contains issue.id))
        let newTappedLines :=
          recordSet s.tappedLines problemId
            (recordGet s.tappedLines problemId ++ [lineNumber])
        match hitIssue with
        | some issue =>
          let newCombo := s.combo + 1
          let scoreGain := calculateScore issue.score newCombo
          { ps with
            gameState :=
              { s with
                score := s.score + (scoreGain : Int)
                combo := newCombo
                solvedIssueIds := s.solvedIssueIds ++ [issue.id]
                allSolvedIssueIds := s.allSolvedIssueIds ++ [issue.id]
                tappedLines := newTappedLines } }
        | none =>
          { ps with
            gameState :=
              { s with
                score := max 0 (s.score - 1)
                combo := 0
                tappedLines := newTappedLines } }

/-- The `bonusScore` computation at the head of `handleSkip()`: the
configured all-issues bonus when every issue of the current problem is in
the per-problem solved list and the problem has at least one issue,
otherwise 0. -/
def skipBonus (currentProblem : Problem) (solvedIssueIds : List String) : Nat :=
  let currentProblemIssues := currentProblem.issues
  let allIssuesSolved := currentProblemIssues.all (fun issue =>
    solvedIssueIds.contains issue.id)
  if allIssuesSolved && currentProblemIssues.length > 0 then
    gameConfig.allIssuesFoundBonus
  else 0

/-- Embedding of `handleSkip()`.  The bonus test (factored out as
`skipBonus`), the pull from the pool front, the `setGameEnded(true)` on an
exhausted pool and the state update follow the source;
`nextProblem?.level || prev.currentLevel` is falsy on a 0 level, hence the
explicit 0 test.  Note that `problemCount` is incremented in both branches
of the source update. -/
def handleSkip (ps : PlayState) : PlayState :=
  if ps.gameEnded then ps
  else
    match ps.gameState.currentProblem with
    | none => ps
    | some currentProblem =>
      let s := ps.gameState
      let bonusScore : Nat := skipBonus currentProblem s.solvedIssueIds
      let nextProblem := selectNextProblemFromPool s.problemPool
      { gameEnded := if nextProblem.isNone then true else ps.gameEnded
        gameState :=
          { s with
            currentProblem := nextProblem
            currentLevel :=
              match nextProblem with
              | some p => if p.level ≠ 0 then p.level else s.currentLevel
              | none => s.currentLevel
            score := s.score + (bonusScore : Int)
            solvedIssueIds := []
            problemCount := s.problemCount + 1
            usedProblemIds :=
              match nextProblem with
              | some p => s.usedProblemIds ++ [p.id]
              | none => s.usedProblemIds
            problemPool := if nextProblem.isSome then s.problemPool.drop 1
              else s.problemPool } }

/-- Embedding of the body of the one-second timer effect: decrement
`remainingSeconds`; when it reaches 0, clamp to 0 and set `gameEnded`.
The effect does not run once `gameEnded` holds (the `useEffect` returns
early and the interval is cleared). -/
def handleTick (ps : PlayState) : PlayState :=
  if ps.gameEnded then ps
  else
    let s := ps.gameState
    let newSeconds := s.remainingSeconds - 1
    if newSeconds ≤ 0 then
      { gameEnded := true, gameState := { s with remainingSeconds := 0 } }
    else
      { ps with gameState := { s with remainingSeconds := newSeconds } }

/-- The three session events of spec §4.3. -/
inductive Event
  | tap (lineNumber : Nat)
  | skip
  | tick
deriving DecidableEq, Repr

/-- One step of the session state machine: dispatch an event to its
handler. -/
def step (ps : PlayState) : Event → PlayState
  | Event.tap n => handleLineTap n ps
  | Event.skip => handleSkip ps
  | Event.tick => handleTick ps

/-- Run a whole event sequence from a state. -/
def run (ps : PlayState) (es : List Event) : PlayState :=
  es.foldl step ps

/-- The summary record assembled by the score-save effect
(`resultData` in the source), minus the two language tags that are
copied through verbatim. -/
structure SessionResult where
  score : Int
  issuesFound : Nat
  totalIssues : Nat
  accuracy : ℚ
deriving DecidableEq, Repr

/-- The concatenation `getProblems(codeLanguage, 1).concat(getProblems(
codeLanguage, 2)).concat(getProblems(codeLanguage, 3))` built by the
score-save effect. -/
def allLevelProblems (cache : List Problem) (lang : CodeLanguageOrAll) :
    List Problem :=
  getProblems cache lang 1 ++ getProblems cache lang 2 ++ getProblems cache lang 3

/-- Embedding of the score-save effect of the pool-based `Play` component
(the result aggregation): filter the problems of all three levels by
membership of their id in `usedProblemIds`, sum their issue counts,
count the session-wide solved list, and divide.  The JS floating-point
quotient is embedded as the exact rational. -/
def computeSessionResult (cache : List Problem) (lang : CodeLanguageOrAll)
    (s : GameState) : SessionResult :=
  let allProblems := allLevelProblems cache lang
  let usedProblems := allProblems.filter (fun p => s.usedProblemIds.contains p.id)
  let totalIssues : Nat :=
    usedProblems.foldl (fun sum problem => sum + problem.issues.length) 0
  let issuesFound : Nat := s.allSolvedIssueIds.length
  let accuracy : ℚ := if totalIssues > 0 then (issuesFound : ℚ) / (totalIssues : ℚ) else 0
  { score := s.score
    issuesFound := issuesFound
    totalIssues := totalIssues
    accuracy := accuracy }

/-- Ghost observer for the result-aggregation claim: the problem that a
`skip` event makes current, namely the front of the remaining pool when
the skip is effective (session in progress, a current problem exists, the
pool is non-empty); every other event makes no problem current. -/
def newlyCurrent (ps : PlayState) : Event → List Problem
  | Event.skip =>
    if ps.gameEnded then []
    else
      match ps.gameState.currentProblem with
      | none => []
      | some _ =>
        match ps.gameState.problemPool with
        | [] => []
        | q :: _ => [q]
  | _ => []

/-- One step of the session paired with the ghost list of problems made
current so far. -/
def stepTrace (acc : PlayState × List Problem) (e : Event) : PlayState × List Problem :=
  (step acc.1 e, acc.2 ++ newlyCurrent acc.1 e)

/-- Run an event sequence and collect the ghost list of problems the run
makes current. -/
def runTrace (ps : PlayState) (es : List Event) : PlayState × List Problem :=
  es.foldl stepTrace (ps, [])

/-- Every problem that is ever made current during the session that starts
from pool `pool` and processes `es`: the initial current problem (when the
pool is non-empty) followed by each problem a skip makes current. -/
def everCurrent (pool : List Problem) (es : List Event) : List Problem :=
  (selectNextProblemFromPool pool).toList ++ (runTrace (initSession pool) es).2

/-- Invariant tying a session state and its ghost trace back to the
initial pool: the problems made current so far are exactly a front
segment of the pool, the remaining pool is the matching tail, and
`usedProblemIds` records exactly the ids of the problems made current. -/
def traceInv (pool : List Problem) (ps : PlayState) (tr : List Problem) : Prop :=
  ∃ n : Nat,
    (selectNextProblemFromPool pool).toList ++ tr = pool.take n ∧
    ps.gameState.problemPool = pool.drop n ∧
    ps.gameState.usedProblemIds = (pool.take n).map Problem.id

/-- Concrete issue used by witnesses: issue `i1` on line 2 with base
score 4 (the `I1@line2 base 4` of the worked example in spec §8). -/
def exIssue1 : Issue :=
  { id := "i1"
    lines := [2]
    type := IssueType.bug
    severity := IssueSeverity.normal
    score := 4
    description := { ja := "", en := "" } }

/-- Concrete issue used by witnesses: issue `i2` on line 3 with base
score 3 (the `I2@line3 base 3` of the worked example in spec §8). -/
def exIssue2 : Issue :=
  { id := "i2"
    lines := [3]
    type := IssueType.security
    severity := IssueSeverity.critical
    score := 3
    description := { ja := "", en := "" } }

/-- Concrete level-1 problem `p1` with the two issues above. -/
def exProblem1 : Problem :=
  { id := "p1"
    codeLanguage := CodeLanguage.javascript
    level := 1
    code := ["const a = 1;", "eval(user);", "for (;;) {}"]
    issues := [exIssue1, exIssue2] }

/-- Concrete level-2 problem `p2` with a single issue `i3` on line 1. -/
def exProblem2 : Problem :=
  { id := "p2"
    codeLanguage := CodeLanguage.javascript
    level := 2
    code := ["while (true) {}"]
    issues :=
      [{ id := "i3"
         lines := [1]
         type := IssueType.performance
         severity := IssueSeverity.minor
         score := 2
         description := { ja := "", en := "" } }] }

/-- Concrete issue `iA` covering line 1, used to exercise a line covered
by two issues. -/
def exIssueA : Issue :=
  { id := "iA"
    lines := [1]
    type := IssueType.bug
    severity := IssueSeverity.normal
    score := 5
    description := { ja := "", en := "" } }

/-- Concrete issue `iB` also covering line 1. -/
def exIssueB : Issue :=
  { id := "iB"
    lines := [1]
    type := IssueType.design
    severity := IssueSeverity.minor
    score := 7
    description := { ja := "", en := "" } }

/-- Concrete problem whose line 1 is covered by the two issues `iA` and
`iB`. -/
def exProblem3 : Problem :=
  { id := "p3"
    codeLanguage := CodeLanguage.python
    level := 1
    code := ["import os"]
    issues := [exIssueA, exIssueB] }

/-- Concrete problem with no issues at all. -/
def exProblem0 : Problem :=
  { id := "p0"
    codeLanguage := CodeLanguage.ruby
    level := 1
    code := ["puts 1"]
    issues := [] }

/-- A session state on `exProblem3` in which `iA` is already solved but
line 1 is not yet recorded as tapped, so a tap on line 1 must credit the
next covering issue `iB`. -/
def exState3 : PlayState :=
  { gameEnded := false
    gameState :=
      { currentProblem := some exProblem3
        currentLevel := 1
        score := 5
        combo := 1
        remainingSeconds := 42
        solvedIssueIds := ["iA"]
        allSolvedIssueIds := ["iA"]
        tappedLines := []
        problemCount := 0
        usedProblemIds := ["p3"]
        problemPool := [] } }

/-! ### Helper lemmas -/

theorem recordGet_cons (kv : String × List Nat) (m : List (String × List Nat))
    (k : String) :
    recordGet (kv :: m) k = if kv.1 == k then kv.2 else recordGet m k := by
  by_cases h : kv.1 == k <;> simp [recordGet, List.find?, h]

theorem recordGet_recordSet_self (m : List (String × List Nat)) (k : String)
    (v : List Nat) : recordGet (recordSet m k v) k = v := by
  induction m with
  | nil => simp [recordSet, recordGet, List.find?]
  | cons kv rest ih =>
    by_cases h : kv.1 == k
    · simp [recordSet, h, recordGet_cons]
    · simp [recordSet, h, recordGet_cons, ih]

/-- C5: for every positive base score and combo value at least 1, the
scoring function returns `floor(baseScore × multiplier)` with the
multiplier table 1 → 1.0, 2 → 1.2, 3 → 1.5, ≥ 4 → 2.0; in particular
`calculateScore 4 3 = 6` and `calculateScore 5 5 = 10`. -/
theorem calculateScore_multiplier_table (baseScore combo : Nat)
    (hbase : 0 < baseScore) (hcombo : 1 ≤ combo) :
    calculateScore baseScore combo
        = Nat.floor ((baseScore : ℚ) * comboMultiplier combo) ∧
      calculateScore 4 3 = 6 ∧ calculateScore 5 5 = 10 := by
  refine ⟨?_, by decide, by decide⟩
  unfold calculateScore comboMultiplier
  by_cases h4 : combo ≥ 4
  · simp only [if_pos h4]
    rw [show (baseScore : ℚ) * 2 = ((2 * baseScore : ℕ) : ℚ) by push_cast; ring,
      Nat.floor_natCast]
  · simp only [if_neg h4]
    by_cases h3 : combo = 3
    · simp only [if_pos h3]
      rw [show (baseScore : ℚ) * (3 / 2) = ((3 * baseScore : ℕ) : ℚ) / ((2 : ℕ) : ℚ) by
          push_cast; ring,
        Nat.floor_div_nat, Nat.floor_natCast]
    · simp only [if_neg h3]
      by_cases h2 : combo = 2
      · simp only [if_pos h2]
        rw [show (baseScore : ℚ) * (6 / 5) = ((6 * baseScore : ℕ) : ℚ) / ((5 : ℕ) : ℚ) by
            push_cast; ring,
          Nat.floor_div_nat, Nat.floor_natCast]
      · simp only [if_neg h2]
        rw [mul_one, Nat.floor_natCast]

/-- Witness for C5 at base score 4, combo 3. -/
theorem calculateScore_multiplier_table_witness :
    (0 : ℕ) < 4 ∧ (1 : ℕ) ≤ 3 ∧
      (calculateScore 4 3 = Nat.floor ((4 : ℚ) * comboMultiplier 3) ∧
        calculateScore 4 3 = 6 ∧ calculateScore 5 5 = 10) :=
  ⟨by decide, by decide, calculateScore_multiplier_table 4 3 (by decide) (by decide)⟩

theorem handleLineTap_ended (l : Nat) (ps : PlayState) (h : ps.gameEnded = true) :
    handleLineTap l ps = ps := by
  simp [handleLineTap, h]

theorem handleLineTap_noProblem (l : Nat) (ps : PlayState)
    (hend : ps.gameEnded = false) (h : ps.gameState.currentProblem = none) :
    handleLineTap l ps = ps := by
  simp [handleLineTap, hend, h]

theorem handleLineTap_alreadyTapped (l : Nat) (ps : PlayState) (cp : Problem)
    (hend : ps.gameEnded = false) (hcur : ps.gameState.currentProblem = some cp)
    (htap : (recordGet ps.gameState.tappedLines cp.id).contains l = true) :
    handleLineTap l ps = ps := by
  simp only [handleLineTap, hend, hcur, htap]
  rfl

theorem handleLineTap_hit (l : Nat) (ps : PlayState) (cp : Problem) (issue : Issue)
    (hend : ps.gameEnded = false) (hcur : ps.gameState.currentProblem = some cp)
    (htap : (recordGet ps.gameState.tappedLines cp.id).contains l = false)
    (hfind : cp.issues.find? (fun issue =>
        issue.lines.contains l && !(ps.gameState.solvedIssueIds.contains issue.id))
      = some issue) :
    handleLineTap l ps =
      { ps with
        gameState :=
          { ps.gameState with
            score := ps.gameState.score
              + (calculateScore issue.score (ps.gameState.combo + 1) : Int)
            combo := ps.gameState.combo + 1
            solvedIssueIds := ps.gameState.solvedIssueIds ++ [issue.id]
            allSolvedIssueIds := ps.gameState.allSolvedIssueIds ++ [issue.id]
            tappedLines := recordSet ps.gameState.tappedLines cp.id
              (recordGet ps.gameState.tappedLines cp.id ++ [l]) } } := by
  simp only [handleLineTap, hend, hcur, htap, hfind]
  rfl

theorem handleLineTap_miss (l : Nat) (ps : PlayState) (cp : Problem)
    (hend : ps.gameEnded = false) (hcur : ps.gameState.currentProblem = some cp)
    (htap : (recordGet ps.gameState.tappedLines cp.id).contains l = false)
    (hfind : cp.issues.find? (fun issue =>
        issue.lines.contains l && !(ps.gameState.solvedIssueIds.contains issue.id))
      = none) :
    handleLineTap l ps =
      { ps with
        gameState :=
          { ps.gameState with
            score := max 0 (ps.gameState.score - 1)
            combo := 0
            tappedLines := recordSet ps.gameState.tappedLines cp.id
              (recordGet ps.gameState.tappedLines cp.id ++ [l]) } } := by
  simp only [handleLineTap, hend, hcur, htap, hfind]
  rfl

theorem handleTick_score (ps : PlayState) :
    (handleTick ps).gameState.score = ps.gameState.score := by
  unfold handleTick
  by_cases hend : ps.gameEnded = true
  · simp [hend]
  · simp only [hend]
    repeat' split
    all_goals rfl

theorem handleLineTap_idem (l : Nat) (qs : PlayState) :
    handleLineTap l (handleLineTap l qs) = handleLineTap l qs := by
  by_cases hend : qs.gameEnded = true
  · have h1 := handleLineTap_ended l qs hend
    rw [h1]; exact h1
  · have hend' : qs.gameEnded = false := by simpa using hend
    cases hcur : qs.gameState.currentProblem with
    | none =>
      have h1 := handleLineTap_noProblem l qs hend' hcur
      rw [h1]; exact h1
    | some cp =>
      by_cases htap : (recordGet qs.gameState.tappedLines cp.id).contains l = true
      · have h1 := handleLineTap_alreadyTapped l qs cp hend' hcur htap
        rw [h1]; exact h1
      · have htap' : (recordGet qs.gameState.tappedLines cp.id).contains l = false := by
          simpa using htap
        have hc : (recordGet qs.gameState.tappedLines cp.id ++ [l]).contains l = true := by
          simp [List.elem_iff]
        cases hfind : cp.issues.find? (fun issue =>
            issue.lines.contains l && !(qs.gameState.solvedIssueIds.contains issue.id)) with
        | some issue =>
          rw [handleLineTap_hit l qs cp issue hend' hcur htap' hfind]
          exact handleLineTap_alreadyTapped l _ cp hend' hcur
            (by simpa [recordGet_recordSet_self] using hc)
        | none =>
          rw [handleLineTap_miss l qs cp hend' hcur htap' hfind]
          exact handleLineTap_alreadyTapped l _ cp hend' hcur
            (by simpa [recordGet_recordSet_self] using hc)

/-- C8: tapping a line already recorded as tapped for the current problem
is a no-op (the whole state, hence score, combo, both solved-sets and the
tapped-line record, is unchanged), and tapping the same line twice in a
row is always equivalent to tapping it once, so repeated taps on the same
line never re-score. -/
theorem tap_on_tapped_line_noop (ps qs : PlayState) (cp : Problem) (l : Nat)
    (hend : ps.gameEnded = false)
    (hcur : ps.gameState.currentProblem = some cp)
    (htap : l ∈ recordGet ps.gameState.tappedLines cp.id) :
    handleLineTap l ps = ps ∧
      handleLineTap l (handleLineTap l qs) = handleLineTap l qs :=
  ⟨handleLineTap_alreadyTapped l ps cp hend hcur (by simpa [List.elem_iff] using htap),
    handleLineTap_idem l qs⟩

/-- Witness for C8: after tapping line 2 of the single-problem session,
line 2 is recorded, and tapping it again is a no-op; the double-tap part
is instantiated at the fresh session. -/
theorem tap_on_tapped_line_noop_witness :
    handleLineTap 2 (handleLineTap 2 (initSession [exProblem1]))
        = handleLineTap 2 (initSession [exProblem1]) ∧
      handleLineTap 2 (handleLineTap 2 (initSession [exProblem1]))
        = handleLineTap 2 (initSession [exProblem1]) :=
  tap_on_tapped_line_noop (handleLineTap 2 (initSession [exProblem1]))
    (initSession [exProblem1]) exProblem1 2 (by decide) (by decide) (by decide)

/-- C10: the Skip transition leaves the combo counter, the remaining
time, and the recorded tapped lines (hence those of every earlier
problem) unchanged; a timer tick also leaves the combo unchanged, so the
combo streak carries over across problem transitions and is reset only
by a miss. -/
theorem skip_frame_preservation (ps : PlayState) :
    (handleSkip ps).gameState.combo = ps.gameState.combo ∧
    (handleSkip ps).gameState.remainingSeconds = ps.gameState.remainingSeconds ∧
    (handleSkip ps).gameState.tappedLines = ps.gameState.tappedLines ∧
    (handleTick ps).gameState.combo = ps.gameState.combo := by
  cases hend : ps.gameEnded with
  | true => simp [handleSkip, handleTick, hend]
  | false =>
    cases hcur : ps.gameState.currentProblem with
    | none =>
      refine ⟨?_, ?_, ?_, ?_⟩ <;>
        · simp only [handleSkip, handleTick, hend, hcur]
          repeat' split
          all_goals rfl
    | some cp =>
      refine ⟨?_, ?_, ?_, ?_⟩ <;>
        · simp only [handleSkip, handleTick, hend, hcur]
          repeat' split
          all_goals rfl

theorem step_score_nonneg (ps : PlayState) (e : Event)
    (h : 0 ≤ ps.gameState.score) : 0 ≤ (step ps e).gameState.score := by
  cases e with
  | tap l =>
    show 0 ≤ (handleLineTap l ps).gameState.score
    by_cases hend : ps.gameEnded = true
    · rw [handleLineTap_ended l ps hend]; exact h
    · have hend' : ps.gameEnded = false := by simpa using hend
      cases hcur : ps.gameState.currentProblem with
      | none => rw [handleLineTap_noProblem l ps hend' hcur]; exact h
      | some cp =>
        by_cases htap : (recordGet ps.gameState.tappedLines cp.id).contains l = true
        · rw [handleLineTap_alreadyTapped l ps cp hend' hcur htap]; exact h
        · have htap' : (recordGet ps.gameState.tappedLines cp.id).contains l = false := by
            simpa using htap
          cases hfind : cp.issues.find? (fun issue =>
              issue.lines.contains l && !(ps.gameState.solvedIssueIds.contains issue.id)) with
          | some issue =>
            rw [handleLineTap_hit l ps cp issue hend' hcur htap' hfind]
            exact add_nonneg h (Int.natCast_nonneg _)
          | none =>
            rw [handleLineTap_miss l ps cp hend' hcur htap' hfind]
            exact le_max_left 0 _
  | skip =>
    show 0 ≤ (handleSkip ps).gameState.score
    cases hend : ps.gameEnded with
    | true => simpa [handleSkip, hend]
    | false =>
      cases hcur : ps.gameState.currentProblem with
      | none => simpa [handleSkip, hend, hcur]
      | some cp =>
        simp only [handleSkip, hend, hcur]
        exact add_nonneg h (Int.natCast_nonneg _)
  | tick =>
    show 0 ≤ (handleTick ps).gameState.score
    rw [handleTick_score]
    exact h

theorem run_score_nonneg (es : List Event) : ∀ ps : PlayState,
    0 ≤ ps.gameState.score → 0 ≤ (run ps es).gameState.score := by
  induction es with
  | nil => intro ps h; simpa [run] using h
  | cons e es ih =>
    intro ps h
    simpa [run, List.foldl] using ih (step ps e) (step_score_nonneg ps e h)

/-- C7: for every pool and every sequence of tap, skip, and tick events
applied to a freshly constructed session, the cumulative score is
non-negative; since the event list is arbitrary, every intermediate state
of a longer run is covered. -/
theorem score_nonneg_invariant (pool : List Problem) (es : List Event) :
    0 ≤ (run (initSession pool) es).gameState.score :=
  run_score_nonneg es (initSession pool) (by simp [initSession])

theorem handleSkip_ended (ps : PlayState) (h : ps.gameEnded = true) :
    handleSkip ps = ps := by
  simp [handleSkip, h]

theorem handleSkip_noProblem (ps : PlayState) (hend : ps.gameEnded = false)
    (h : ps.gameState.currentProblem = none) : handleSkip ps = ps := by
  simp [handleSkip, hend, h]

theorem handleSkip_emptyPool (ps : PlayState) (cp : Problem)
    (hend : ps.gameEnded = false) (hcur : ps.gameState.currentProblem = some cp)
    (hpool : ps.gameState.problemPool = []) :
    handleSkip ps =
      { gameEnded := true
        gameState :=
          { ps.gameState with
            currentProblem := none
            score := ps.gameState.score + (skipBonus cp ps.gameState.solvedIssueIds : Int)
            solvedIssueIds := []
            problemCount := ps.gameState.problemCount + 1 } } := by
  simp only [handleSkip, hend, hcur, hpool, selectNextProblemFromPool]
  rfl

theorem handleSkip_consPool (ps : PlayState) (cp q : Problem) (rest : List Problem)
    (hend : ps.gameEnded = false) (hcur : ps.gameState.currentProblem = some cp)
    (hpool : ps.gameState.problemPool = q :: rest) :
    handleSkip ps =
      { gameEnded := false
        gameState :=
          { ps.gameState with
            currentProblem := some q
            currentLevel := if q.level ≠ 0 then q.level else ps.gameState.currentLevel
            score := ps.gameState.score + (skipBonus cp ps.gameState.solvedIssueIds : Int)
            solvedIssueIds := []
            problemCount := ps.gameState.problemCount + 1
            usedProblemIds := ps.gameState.usedProblemIds ++ [q.id]
            problemPool := rest } } := by
  simp only [handleSkip, hend, hcur, hpool, selectNextProblemFromPool]
  rfl

theorem handleSkip_score (ps : PlayState) (cp : Problem)
    (hend : ps.gameEnded = false) (hcur : ps.gameState.currentProblem = some cp) :
    (handleSkip ps).gameState.score
      = ps.gameState.score + (skipBonus cp ps.gameState.solvedIssueIds : Int) := by
  cases hpool : ps.gameState.problemPool with
  | nil => rw [handleSkip_emptyPool ps cp hend hcur hpool]
  | cons q rest => rw [handleSkip_consPool ps cp q rest hend hcur hpool]

theorem skipBonus_of_allSolved (cp : Problem) (solved : List String)
    (hne : cp.issues ≠ []) (hall : ∀ i ∈ cp.issues, i.id ∈ solved) :
    skipBonus cp solved = gameConfig.allIssuesFoundBonus := by
  have h1 : cp.issues.all (fun issue => solved.contains issue.id) = true := by
    rw [List.all_eq_true]
    intro i hi
    simpa [List.elem_iff] using hall i hi
  have h2 : 0 < cp.issues.length := List.length_pos.mpr hne
  simp only [skipBonus, h1, Bool.true_and, decide_eq_true h2, if_pos]

theorem skipBonus_empty_issues (cp : Problem) (solved : List String)
    (h : cp.issues = []) : skipBonus cp solved = 0 := by
  simp [skipBonus, h]

theorem skipBonus_nil_solved (cp : Problem) : skipBonus cp [] = 0 := by
  unfold skipBonus
  cases hi : cp.issues with
  | nil => simp
  | cons i rest => simp [hi]

theorem handleSkip_skip_score (ps : PlayState) :
    (handleSkip (handleSkip ps)).gameState.score = (handleSkip ps).gameState.score := by
  by_cases hend : ps.gameEnded = true
  · rw [handleSkip_ended ps hend, handleSkip_ended ps hend]
  · have hend' : ps.gameEnded = false := by simpa using hend
    cases hcur : ps.gameState.currentProblem with
    | none =>
      rw [handleSkip_noProblem ps hend' hcur, handleSkip_noProblem ps hend' hcur]
    | some cp =>
      cases hpool : ps.gameState.problemPool with
      | nil =>
        rw [handleSkip_emptyPool ps cp hend' hcur hpool]
        rw [handleSkip_ended _ rfl]
      | cons q rest =>
        rw [handleSkip_consPool ps cp q rest hend' hcur hpool]
        rw [handleSkip_score _ q rfl rfl]
        simp [skipBonus_nil_solved]

/-- C4: skipping a problem whose every issue is solved and which has at
least one issue adds exactly the configured `allIssuesFoundBonus`
(which is 3) to the cumulative score; a second skip immediately after a
skip (that is, with no new finds on the fresh problem) never changes the
score again, so the bonus is awarded at most once per problem; and a
problem with no issues never yields the bonus. -/
theorem allIssuesFoundBonus_once (ps ps₂ : PlayState) (cp cp₂ : Problem)
    (hend : ps.gameEnded = false)
    (hcur : ps.gameState.currentProblem = some cp)
    (hne : cp.issues ≠ [])
    (hall : ∀ i ∈ cp.issues, i.id ∈ ps.gameState.solvedIssueIds)
    (hend₂ : ps₂.gameEnded = false)
    (hcur₂ : ps₂.gameState.currentProblem = some cp₂)
    (hempty : cp₂.issues = []) :
    gameConfig.allIssuesFoundBonus = 3 ∧
    (handleSkip ps).gameState.score
      = ps.gameState.score + (gameConfig.allIssuesFoundBonus : Int) ∧
    (handleSkip (handleSkip ps)).gameState.score = (handleSkip ps).gameState.score ∧
    (handleSkip ps₂).gameState.score = ps₂.gameState.score := by
  refine ⟨rfl, ?_, handleSkip_skip_score ps, ?_⟩
  · rw [handleSkip_score ps cp hend hcur, skipBonus_of_allSolved cp _ hne hall]
  · rw [handleSkip_score ps₂ cp₂ hend₂ hcur₂, skipBonus_empty_issues cp₂ _ hempty]
    simp

/-- Witness for C4: after finding both issues of the single-problem
session, the skip awards exactly 3 points; a second skip changes nothing;
and skipping the zero-issue problem `p0` awards nothing. -/
theorem allIssuesFoundBonus_once_witness :
    gameConfig.allIssuesFoundBonus = 3 ∧
    (handleSkip (run (initSession [exProblem1]) [Event.tap 2, Event.tap 3])).gameState.score
      = (run (initSession [exProblem1]) [Event.tap 2, Event.tap 3]).gameState.score
        + (gameConfig.allIssuesFoundBonus : Int) ∧
    (handleSkip (handleSkip (run (initSession [exProblem1])
        [Event.tap 2, Event.tap 3]))).gameState.score
      = (handleSkip (run (initSession [exProblem1])
          [Event.tap 2, Event.tap 3])).gameState.score ∧
    (handleSkip (initSession [exProblem0])).gameState.score
      = (initSession [exProblem0]).gameState.score :=
  allIssuesFoundBonus_once
    (run (initSession [exProblem1]) [Event.tap 2, Event.tap 3])
    (initSession [exProblem0]) exProblem1 exProblem0
    (by decide) (by decide) (by decide) (by decide) (by decide) (by decide) (by decide)

/-- C1 (counterexample): a Skip that finds the pool empty does NOT leave
the problems-completed count unchanged.  The single-problem session is in
progress with an empty remaining pool, yet `handleSkip` changes
`problemCount` (from 0 to 1), refuting the final clause of the claim. -/
theorem skip_emptyPool_counterexample :
    (initSession [exProblem1]).gameEnded = false ∧
    (initSession [exProblem1]).gameState.currentProblem = some exProblem1 ∧
    (initSession [exProblem1]).gameState.problemPool = [] ∧
    (handleSkip (initSession [exProblem1])).gameState.problemCount
      ≠ (initSession [exProblem1]).gameState.problemCount := by
  refine ⟨rfl, rfl, rfl, by decide⟩

/-- C1 (amended): for a session in progress whose pool problems carry
non-zero levels (the data model uses levels 1–3), Skip first adds the
all-issues bonus when due, then pulls the next problem from the pool
front.  Empty pool: the session transitions to `Ended`, the current
problem becomes null, the per-problem solved-set is cleared.  Non-empty
pool: the pulled problem becomes current, the current level is set to its
level, the per-problem solved-set is cleared and the tapped-line record
is left untouched (so the fresh problem's tapped-line set is empty
whenever it was never current before).  In both branches — including the
empty-pool one — the problems-completed counter is incremented. -/
theorem skip_transition (ps : PlayState) (cp : Problem)
    (hend : ps.gameEnded = false)
    (hcur : ps.gameState.currentProblem = some cp)
    (hlvl : ∀ q ∈ ps.gameState.problemPool, q.level ≠ 0) :
    handleSkip ps =
      match ps.gameState.problemPool with
      | [] =>
        { gameEnded := true
          gameState :=
            { ps.gameState with
              currentProblem := none
              score := ps.gameState.score
                + (skipBonus cp ps.gameState.solvedIssueIds : Int)
              solvedIssueIds := []
              problemCount := ps.gameState.problemCount + 1 } }
      | q :: rest =>
        { gameEnded := false
          gameState :=
            { ps.gameState with
              currentProblem := some q
              currentLevel := q.level
              score := ps.gameState.score
                + (skipBonus cp ps.gameState.solvedIssueIds : Int)
              solvedIssueIds := []
              problemCount := ps.gameState.problemCount + 1
              usedProblemIds := ps.gameState.usedProblemIds ++ [q.id]
              problemPool := rest } } := by
  cases hpool : ps.gameState.problemPool with
  | nil =>
    rw [handleSkip_emptyPool ps cp hend hcur hpool]
  | cons q rest =>
    have hq : q.level ≠ 0 := hlvl q (by rw [hpool]; exact List.mem_cons_self q rest)
    rw [handleSkip_consPool ps cp q rest hend hcur hpool, if_pos hq]

/-- Witness for C1 (amended) at the two-problem session, whose remaining
pool is the one-element list `[exProblem2]`. -/
theorem skip_transition_witness :
    handleSkip (initSession [exProblem1, exProblem2]) =
      match (initSession [exProblem1, exProblem2]).gameState.problemPool with
      | [] =>
        { gameEnded := true
          gameState :=
            { (initSession [exProblem1, exProblem2]).gameState with
              currentProblem := none
              score := (initSession [exProblem1, exProblem2]).gameState.score
                + (skipBonus exProblem1
                    (initSession [exProblem1, exProblem2]).gameState.solvedIssueIds : Int)
              solvedIssueIds := []
              problemCount :=
                (initSession [exProblem1, exProblem2]).gameState.problemCount + 1 } }
      | q :: rest =>
        { gameEnded := false
          gameState :=
            { (initSession [exProblem1, exProblem2]).gameState with
              currentProblem := some q
              currentLevel := q.level
              score := (initSession [exProblem1, exProblem2]).gameState.score
                + (skipBonus exProblem1
                    (initSession [exProblem1, exProblem2]).gameState.solvedIssueIds : Int)
              solvedIssueIds := []
              problemCount :=
                (initSession [exProblem1, exProblem2]).gameState.problemCount + 1
              usedProblemIds :=
                (initSession [exProblem1, exProblem2]).gameState.usedProblemIds ++ [q.id]
              problemPool := rest } } :=
  skip_transition (initSession [exProblem1, exProblem2]) exProblem1
    (by decide) (by decide) (by decide)

/-- C6: a tap on a not-previously-tapped line that is covered by no
not-yet-solved issue of the current problem is a miss: the score becomes
`max 0 (score - 1)` (a decrease of exactly 1, floored at 0), stays
non-negative, the combo resets to 0, the tap is recorded (never
rejected), and the solved-sets are unchanged.  Out-of-range line numbers
satisfy the coverage hypothesis vacuously (no issue covers a line outside
the code), so they are subsumed without special-casing — the witness taps
line 99 of a 3-line problem. -/
theorem tap_miss_penalty (ps : PlayState) (cp : Problem) (l : Nat)
    (hend : ps.gameEnded = false)
    (hcur : ps.gameState.currentProblem = some cp)
    (hnt : l ∉ recordGet ps.gameState.tappedLines cp.id)
    (hmiss : ∀ issue ∈ cp.issues, l ∈ issue.lines →
      issue.id ∈ ps.gameState.solvedIssueIds) :
    (handleLineTap l ps).gameState.score = max 0 (ps.gameState.score - 1) ∧
    0 ≤ (handleLineTap l ps).gameState.score ∧
    (handleLineTap l ps).gameState.combo = 0 ∧
    recordGet (handleLineTap l ps).gameState.tappedLines cp.id
      = recordGet ps.gameState.tappedLines cp.id ++ [l] ∧
    (handleLineTap l ps).gameState.solvedIssueIds = ps.gameState.solvedIssueIds ∧
    (handleLineTap l ps).gameState.allSolvedIssueIds
      = ps.gameState.allSolvedIssueIds := by
  have hfind : cp.issues.find? (fun issue =>
      issue.lines.contains l && !(ps.gameState.solvedIssueIds.contains issue.id))
      = none := by
    rw [List.find?_eq_none]
    intro issue hiss
    intro hcontra
    rw [Bool.and_eq_true] at hcontra
    obtain ⟨h1, h2⟩ := hcontra
    have hmem : l ∈ issue.lines := by simpa [List.elem_iff] using h1
    have hsolved := hmiss issue hiss hmem
    rw [Bool.not_eq_true'] at h2
    exact absurd hsolved (by simpa [List.elem_iff] using h2)
  rw [handleLineTap_miss l ps cp hend hcur (by simpa [List.elem_iff] using hnt) hfind]
  refine ⟨rfl, le_max_left 0 _, rfl, ?_, rfl, rfl⟩
  exact recordGet_recordSet_self _ _ _

/-- Witness for C6: tapping line 99 (outside the 3-line code of the
current problem) of the fresh single-problem session costs one point
(clamped at 0) and resets the combo, and the tap is recorded. -/
theorem tap_miss_penalty_witness :
    (handleLineTap 99 (initSession [exProblem1])).gameState.score
        = max 0 ((initSession [exProblem1]).gameState.score - 1) ∧
      0 ≤ (handleLineTap 99 (initSession [exProblem1])).gameState.score ∧
      (handleLineTap 99 (initSession [exProblem1])).gameState.combo = 0 ∧
      recordGet (handleLineTap 99 (initSession [exProblem1])).gameState.tappedLines
          exProblem1.id
        = recordGet (initSession [exProblem1]).gameState.tappedLines
            exProblem1.id ++ [99] ∧
      (handleLineTap 99 (initSession [exProblem1])).gameState.solvedIssueIds
        = (initSession [exProblem1]).gameState.solvedIssueIds ∧
      (handleLineTap 99 (initSession [exProblem1])).gameState.allSolvedIssueIds
        = (initSession [exProblem1]).gameState.allSolvedIssueIds :=
  tap_miss_penalty (initSession [exProblem1]) exProblem1 99
    (by decide) (by decide) (by decide) (by decide)

theorem find?_append_cons {α : Type} (p : α → Bool) (pre : List α) (i : α)
    (post : List α) (hpre : ∀ j ∈ pre, p j = false) (hi : p i = true) :
    List.find? p (pre ++ i :: post) = some i := by
  induction pre with
  | nil => simpa using List.find?_cons_of_pos post hi
  | cons a pre ih =>
    have ha : p a = false := hpre a (List.mem_cons_self a pre)
    rw [List.cons_append, List.find?_cons_of_neg _ (by simp [ha])]
    exact ih (fun j hj => hpre j (List.mem_cons_of_mem a hj))

/-- C9: when a not-previously-tapped line is covered by an issue `i` that
is the first issue in the problem's issue-list order among those covering
the line and not yet solved (every earlier issue either does not cover
the line or is already solved), the tap credits exactly `i`: exactly one
id is appended to each solved-set (their lengths grow by exactly one) and
exactly one award — that of `i` — is added to the score. -/
theorem tap_credits_first_unsolved_issue (ps : PlayState) (cp : Problem) (l : Nat)
    (pre post : List Issue) (i : Issue)
    (hend : ps.gameEnded = false)
    (hcur : ps.gameState.currentProblem = some cp)
    (hnt : l ∉ recordGet ps.gameState.tappedLines cp.id)
    (hsplit : cp.issues = pre ++ i :: post)
    (hpre : ∀ j ∈ pre, l ∈ j.lines → j.id ∈ ps.gameState.solvedIssueIds)
    (hil : l ∈ i.lines)
    (hisolved : i.id ∉ ps.gameState.solvedIssueIds) :
    (handleLineTap l ps).gameState.solvedIssueIds
        = ps.gameState.solvedIssueIds ++ [i.id] ∧
      (handleLineTap l ps).gameState.allSolvedIssueIds
        = ps.gameState.allSolvedIssueIds ++ [i.id] ∧
      (handleLineTap l ps).gameState.score
        = ps.gameState.score + (calculateScore i.score (ps.gameState.combo + 1) : Int) ∧
      (handleLineTap l ps).gameState.combo = ps.gameState.combo + 1 ∧
      (handleLineTap l ps).gameState.solvedIssueIds.length
        = ps.gameState.solvedIssueIds.length + 1 ∧
      (handleLineTap l ps).gameState.allSolvedIssueIds.length
        = ps.gameState.allSolvedIssueIds.length + 1 := by
  have hfind : cp.issues.find? (fun issue =>
      issue.lines.contains l && !(ps.gameState.solvedIssueIds.contains issue.id))
      = some i := by
    rw [hsplit]
    apply find?_append_cons
    · intro j hj
      by_cases hjl : l ∈ j.lines
      · have := hpre j hj hjl
        simp [List.elem_iff, hjl, this]
      · simp [List.elem_iff, hjl]
    · simp [List.elem_iff, hil, hisolved]
  rw [handleLineTap_hit l ps cp i hend hcur (by simpa [List.elem_iff] using hnt) hfind]
  refine ⟨rfl, rfl, rfl, rfl, ?_, ?_⟩ <;> simp

/-- Witness for C9 at `exState3`: line 1 of `exProblem3` is covered by
both `iA` (already solved) and `iB`; the tap credits exactly `iB`. -/
theorem tap_credits_first_unsolved_issue_witness :
    (handleLineTap 1 exState3).gameState.solvedIssueIds
        = exState3.gameState.solvedIssueIds ++ [exIssueB.id] ∧
      (handleLineTap 1 exState3).gameState.allSolvedIssueIds
        = exState3.gameState.allSolvedIssueIds ++ [exIssueB.id] ∧
      (handleLineTap 1 exState3).gameState.score
        = exState3.gameState.score
          + (calculateScore exIssueB.score (exState3.gameState.combo + 1) : Int) ∧
      (handleLineTap 1 exState3).gameState.combo = exState3.gameState.combo + 1 ∧
      (handleLineTap 1 exState3).gameState.solvedIssueIds.length
        = exState3.gameState.solvedIssueIds.length + 1 ∧
      (handleLineTap 1 exState3).gameState.allSolvedIssueIds.length
        = exState3.gameState.allSolvedIssueIds.length + 1 :=
  tap_credits_first_unsolved_issue exState3 exProblem3 1 [exIssueA] [] exIssueB
    (by decide) (by decide) (by decide) (by decide) (by decide) (by decide) (by decide)

theorem foldl_add_issues (l : List Problem) (init : Nat) :
    l.foldl (fun sum problem => sum + problem.issues.length) init
      = init + (l.map (fun p => p.issues.length)).sum := by
  induction l generalizing init with
  | nil => simp
  | cons p t ih => simp [List.foldl, ih, Nat.add_assoc]

theorem handleLineTap_pool_used (l : Nat) (ps : PlayState) :
    (handleLineTap l ps).gameState.problemPool = ps.gameState.problemPool ∧
    (handleLineTap l ps).gameState.usedProblemIds = ps.gameState.usedProblemIds := by
  by_cases hend : ps.gameEnded = true
  · rw [handleLineTap_ended l ps hend]; exact ⟨rfl, rfl⟩
  · have hend' : ps.gameEnded = false := by simpa using hend
    cases hcur : ps.gameState.currentProblem with
    | none => rw [handleLineTap_noProblem l ps hend' hcur]; exact ⟨rfl, rfl⟩
    | some cp =>
      by_cases htap : (recordGet ps.gameState.tappedLines cp.id).contains l = true
      · rw [handleLineTap_alreadyTapped l ps cp hend' hcur htap]; exact ⟨rfl, rfl⟩
      · have htap' : (recordGet ps.gameState.tappedLines cp.id).contains l = false := by
          simpa using htap
        cases hfind : cp.issues.find? (fun issue =>
            issue.lines.contains l && !(ps.gameState.solvedIssueIds.contains issue.id)) with
        | some issue =>
          rw [handleLineTap_hit l ps cp issue hend' hcur htap' hfind]; exact ⟨rfl, rfl⟩
        | none =>
          rw [handleLineTap_miss l ps cp hend' hcur htap' hfind]; exact ⟨rfl, rfl⟩

theorem handleTick_pool_used (ps : PlayState) :
    (handleTick ps).gameState.problemPool = ps.gameState.problemPool ∧
    (handleTick ps).gameState.usedProblemIds = ps.gameState.usedProblemIds := by
  unfold handleTick
  by_cases hend : ps.gameEnded = true
  · simp [hend]
  · simp only [hend]
    constructor <;> (repeat' split) <;> rfl

theorem take_drop_succ (l : List Problem) (n : Nat) (q : Problem)
    (rest : List Problem) (h : l.drop n = q :: rest) :
    l.take (n + 1) = l.take n ++ [q] ∧ l.drop (n + 1) = rest := by
  constructor
  · rw [List.take_succ]
    have h0 : l[n]? = some q := by
      have hgd := List.getElem?_drop l n 0
      rw [h] at hgd
      simpa using hgd.symm
    simp [h0]
  · have hdd := List.drop_drop 1 n l
    rw [← hdd, h]
    rfl

theorem traceInv_init (pool : List Problem) : traceInv pool (initSession pool) [] := by
  cases pool with
  | nil =>
    refine ⟨0, ?_, ?_, ?_⟩ <;> simp [selectNextProblemFromPool, initSession]
  | cons p rest =>
    refine ⟨1, ?_, ?_, ?_⟩ <;> simp [selectNextProblemFromPool, initSession]

theorem traceInv_step (pool : List Problem) (ps : PlayState) (tr : List Problem)
    (e : Event) (h : traceInv pool ps tr) :
    traceInv pool (step ps e) (tr ++ newlyCurrent ps e) := by
  obtain ⟨n, htr, hpp, hused⟩ := h
  cases e with
  | tap l =>
    refine ⟨n, by simpa [newlyCurrent] using htr, ?_, ?_⟩
    · rw [show step ps (Event.tap l) = handleLineTap l ps from rfl,
        (handleLineTap_pool_used l ps).1]
      exact hpp
    · rw [show step ps (Event.tap l) = handleLineTap l ps from rfl,
        (handleLineTap_pool_used l ps).2]
      exact hused
  | tick =>
    refine ⟨n, by simpa [newlyCurrent] using htr, ?_, ?_⟩
    · rw [show step ps Event.tick = handleTick ps from rfl,
        (handleTick_pool_used ps).1]
      exact hpp
    · rw [show step ps Event.tick = handleTick ps from rfl,
        (handleTick_pool_used ps).2]
      exact hused
  | skip =>
    by_cases hend : ps.gameEnded = true
    · have hskip : step ps Event.skip = ps := handleSkip_ended ps hend
      have hnc : newlyCurrent ps Event.skip = [] := by simp [newlyCurrent, hend]
      rw [hskip, hnc]
      exact ⟨n, by simpa using htr, hpp, hused⟩
    · have hend' : ps.gameEnded = false := by simpa using hend
      cases hcur : ps.gameState.currentProblem with
      | none =>
        have hskip : step ps Event.skip = ps := handleSkip_noProblem ps hend' hcur
        have hnc : newlyCurrent ps Event.skip = [] := by
          simp [newlyCurrent, hend', hcur]
        rw [hskip, hnc]
        exact ⟨n, by simpa using htr, hpp, hused⟩
      | some cp =>
        cases hpool : ps.gameState.problemPool with
        | nil =>
          have hskip : step ps Event.skip = handleSkip ps := rfl
          have hrec := handleSkip_emptyPool ps cp hend' hcur hpool
          have hnc : newlyCurrent ps Event.skip = [] := by
            simp [newlyCurrent, hend', hcur, hpool]
          refine ⟨n, by simpa [hnc] using htr, ?_, ?_⟩
          · rw [hskip, hrec]; exact hpp
          · rw [hskip, hrec]; exact hused
        | cons q rest =>
          have hskip : step ps Event.skip = handleSkip ps := rfl
          have hrec := handleSkip_consPool ps cp q rest hend' hcur hpool
          have hnc : newlyCurrent ps Event.skip = [q] := by
            simp [newlyCurrent, hend', hcur, hpool]
          have hdq : pool.drop n = q :: rest := by rw [← hpp, hpool]
          obtain ⟨htake, hdrop⟩ := take_drop_succ pool n q rest hdq
          refine ⟨n + 1, ?_, ?_, ?_⟩
          · rw [hnc, htake, ← htr, List.append_assoc]
          · rw [hskip, hrec]
            exact hdrop.symm
          · rw [hskip, hrec, htake, List.map_append, ← hused]
            rfl

theorem traceInv_foldl (pool : List Problem) (es : List Event) :
    ∀ (ps : PlayState) (tr : List Problem), traceInv pool ps tr →
      traceInv pool (es.foldl stepTrace (ps, tr)).1 (es.foldl stepTrace (ps, tr)).2 := by
  induction es with
  | nil => intro ps tr h; simpa using h
  | cons e es ih =>
    intro ps tr h
    exact ih (step ps e) (tr ++ newlyCurrent ps e) (traceInv_step pool ps tr e h)

theorem foldl_stepTrace_fst (es : List Event) :
    ∀ (ps : PlayState) (tr : List Problem),
      (es.foldl stepTrace (ps, tr)).1 = run ps es := by
  induction es with
  | nil => intro ps tr; rfl
  | cons e es ih => intro ps tr; exact ih (step ps e) (tr ++ newlyCurrent ps e)

theorem mem_getProblems {cache : List Problem} {lang : CodeLanguageOrAll}
    {lvl : Nat} {p : Problem} (h : p ∈ getProblems cache lang lvl) :
    p ∈ cache ∧ p.level = lvl := by
  rw [getProblems, List.mem_filter] at h
  obtain ⟨hc, hcond⟩ := h
  rw [Bool.and_eq_true] at hcond
  exact ⟨hc, beq_iff_eq.mp hcond.2⟩

theorem getProblems_ids_nodup (cache : List Problem) (lang : CodeLanguageOrAll)
    (lvl : Nat) (h : (cache.map Problem.id).Nodup) :
    ((getProblems cache lang lvl).map Problem.id).Nodup :=
  h.sublist ((List.filter_sublist cache).map Problem.id)

theorem disjoint_getProblems_ids (cache : List Problem) (lang : CodeLanguageOrAll)
    (l₁ l₂ : Nat) (hne : l₁ ≠ l₂) (h : (cache.map Problem.id).Nodup) :
    ((getProblems cache lang l₁).map Problem.id).Disjoint
      ((getProblems cache lang l₂).map Problem.id) := by
  intro x hx₁ hx₂
  obtain ⟨a, ha, hax⟩ := List.mem_map.mp hx₁
  obtain ⟨b, hb, hbx⟩ := List.mem_map.mp hx₂
  obtain ⟨hac, hal⟩ := mem_getProblems ha
  obtain ⟨hbc, hbl⟩ := mem_getProblems hb
  have hab : a = b := List.inj_on_of_nodup_map h hac hbc (by rw [hax, hbx])
  exact hne (by rw [← hal, hab, hbl])

theorem allLevelProblems_ids_nodup (cache : List Problem) (lang : CodeLanguageOrAll)
    (h : (cache.map Problem.id).Nodup) :
    ((allLevelProblems cache lang).map Problem.id).Nodup := by
  unfold allLevelProblems
  rw [List.map_append, List.map_append, List.nodup_append, List.nodup_append,
    List.disjoint_append_left]
  exact ⟨⟨getProblems_ids_nodup cache lang 1 h, getProblems_ids_nodup cache lang 2 h,
      disjoint_getProblems_ids cache lang 1 2 (by decide) h⟩,
    getProblems_ids_nodup cache lang 3 h,
    disjoint_getProblems_ids cache lang 1 3 (by decide) h,
    disjoint_getProblems_ids cache lang 2 3 (by decide) h⟩

theorem filter_by_ids_perm (A E : List Problem)
    (hA : (A.map Problem.id).Nodup)
    (hE : (E.map Problem.id).Nodup)
    (hEA : ∀ p ∈ E, p ∈ A) :
    (A.filter (fun p => (E.map Problem.id).contains p.id)).Perm E := by
  have hAnd : A.Nodup := hA.of_map
  have hEnd : E.Nodup := hE.of_map
  rw [List.perm_ext_iff_of_nodup (hAnd.filter _) hEnd]
  intro x
  rw [List.mem_filter]
  constructor
  · rintro ⟨hxA, hxid⟩
    have hxid2 : x.id ∈ E.map Problem.id := by simpa [List.elem_iff] using hxid
    obtain ⟨e, he, hex⟩ := List.mem_map.mp hxid2
    have hx : e = x := List.inj_on_of_nodup_map hA (hEA e he) hxA hex
    rwa [← hx]
  · intro hxE
    refine ⟨hEA x hxE, ?_⟩
    simpa [List.elem_iff] using List.mem_map_of_mem Problem.id hxE

theorem totalIssues_eq (cache : List Problem) (lang : CodeLanguageOrAll)
    (s : GameState) (E : List Problem)
    (hused : s.usedProblemIds = E.map Problem.id)
    (hcache : (cache.map Problem.id).Nodup)
    (hE : (E.map Problem.id).Nodup)
    (hEA : ∀ p ∈ E, p ∈ allLevelProblems cache lang) :
    (computeSessionResult cache lang s).totalIssues
      = (E.map (fun p => p.issues.length)).sum := by
  have hperm := (filter_by_ids_perm (allLevelProblems cache lang) E
    (allLevelProblems_ids_nodup cache lang hcache) hE hEA).map
      (fun p => p.issues.length)
  show ((allLevelProblems cache lang).filter
      (fun p => s.usedProblemIds.contains p.id)).foldl
        (fun sum problem => sum + problem.issues.length) 0
    = (E.map (fun p => p.issues.length)).sum
  rw [hused, foldl_add_issues, Nat.zero_add]
  exact hperm.sum_eq

theorem accuracy_formula (cache : List Problem) (lang : CodeLanguageOrAll)
    (s : GameState) :
    (computeSessionResult cache lang s).accuracy
      = if (computeSessionResult cache lang s).totalIssues = 0 then 0
        else ((computeSessionResult cache lang s).issuesFound : ℚ)
          / ((computeSessionResult cache lang s).totalIssues : ℚ) := by
  unfold computeSessionResult
  dsimp only
  split
  · next h => rw [if_neg (by omega)]
  · next h => rw [if_pos (by omega)]

/-- C3: for any session run to completion, the aggregation of the
score-save effect computes `totalIssues` as the sum of issue counts over
exactly the problems that were ever made current during the session
(`everCurrent`, which includes the final unsolved problem when the timer,
not the pool, ended the session), `issuesFound` as the length of the
session-wide solved list (equal to the cardinality of the solved-set
whenever the list has no duplicate ids), and `accuracy` as
`issuesFound / totalIssues`, with 0 when `totalIssues` is 0.  The
hypotheses state that the pool was drawn from the repository problems of
levels 1–3 for the session's language and that problem ids are unique, as
the pool builder and data model guarantee. -/
theorem sessionResult_aggregation (cache : List Problem) (lang : CodeLanguageOrAll)
    (pool : List Problem) (es : List Event)
    (hpool : ∀ p ∈ pool, p ∈ allLevelProblems cache lang)
    (hcache : (cache.map Problem.id).Nodup)
    (hpoolids : (pool.map Problem.id).Nodup)
    (hended : (run (initSession pool) es).gameEnded = true) :
    (computeSessionResult cache lang (run (initSession pool) es).gameState).totalIssues
        = ((everCurrent pool es).map (fun p => p.issues.length)).sum ∧
      (computeSessionResult cache lang (run (initSession pool) es).gameState).issuesFound
        = (run (initSession pool) es).gameState.allSolvedIssueIds.length ∧
      ((run (initSession pool) es).gameState.allSolvedIssueIds.Nodup →
        (computeSessionResult cache lang (run (initSession pool) es).gameState).issuesFound
          = (run (initSession pool) es).gameState.allSolvedIssueIds.toFinset.card) ∧
      (computeSessionResult cache lang (run (initSession pool) es).gameState).accuracy
        = if (computeSessionResult cache lang
                (run (initSession pool) es).gameState).totalIssues = 0 then 0
          else ((computeSessionResult cache lang
                (run (initSession pool) es).gameState).issuesFound : ℚ)
            / ((computeSessionResult cache lang
                (run (initSession pool) es).gameState).totalIssues : ℚ) := by
  obtain ⟨n, htr, hpp, hused⟩ := traceInv_foldl pool es (initSession pool) []
    (traceInv_init pool)
  rw [foldl_stepTrace_fst es (initSession pool) []] at hused
  have hEC : everCurrent pool es = pool.take n := htr
  refine ⟨?_, rfl, ?_, accuracy_formula cache lang _⟩
  · rw [hEC]
    apply totalIssues_eq cache lang _ (pool.take n) hused hcache
    · exact hpoolids.sublist ((List.take_sublist n pool).map Problem.id)
    · intro p hp
      exact hpool p (List.take_subset n pool hp)
  · intro hnd
    exact (List.toFinset_card_of_nodup hnd).symm

/-- Witness for C3: the worked example of spec §8 — single-problem pool,
both issues found, then skip ends the session; the aggregation yields
2 total issues and 2 found. -/
theorem sessionResult_aggregation_witness :
    (computeSessionResult [exProblem1, exProblem2] CodeLanguageOrAll.all
        (run (initSession [exProblem1])
          [Event.tap 2, Event.tap 3, Event.skip]).gameState).totalIssues = 2 ∧
      (computeSessionResult [exProblem1, exProblem2] CodeLanguageOrAll.all
        (run (initSession [exProblem1])
          [Event.tap 2, Event.tap 3, Event.skip]).gameState).issuesFound = 2 := by
  have h := sessionResult_aggregation [exProblem1, exProblem2] CodeLanguageOrAll.all
    [exProblem1] [Event.tap 2, Event.tap 3, Event.skip]
    (by decide) (by decide) (by decide) (by decide)
  refine ⟨?_, ?_⟩
  · rw [h.1]; decide
  · rw [h.2.1]; decide

end BugSniper
